import Mathlib

/-!
# Verification of the Thurup 28/56 card-game backend

Shallow embedding of `backend/app/game/rules.py`, `trick_manager.py`,
`hidden_trump.py` and `session.py`, together with theorems settling the
specification claims about trick resolution, bidding, hidden trump,
scoring and round bookkeeping.

Python `dict[int, ...]` fields indexed by seat are modelled as seat-indexed
lists; Python's `(x - 1) % seats` on nonnegative `x` is modelled as
`(x + seats - 1) % seats`, which agrees with it for `0 ≤ x < seats` and
`seats > 0`.  Randomness (deck shuffling) is modelled by passing the
shuffled deck as an explicit argument.
-/

namespace Thurup

/-- From `constants.py` `Suit`: the four suit symbols, in enum order. -/
def SUITS : List String := ["♠", "♥", "♦", "♣"]

/-- From `constants.py` `CardRank`: ranks in enum order. -/
def RANKS_28 : List String := ["7", "8", "9", "10", "J", "Q", "K", "A"]

/-- `rules.py` `Card`: a frozen dataclass (suit, rank, uid). -/
structure Card where
  suit : String
  rank : String
  uid : String
deriving DecidableEq, Repr, Inhabited

/-- `rules.py` `TRUMP_RANK_ORDER` (low to high). -/
def TRUMP_RANK_ORDER : List String := ["7", "8", "Q", "K", "10", "A", "9", "J"]

/-- `rules.py` `NON_TRUMP_RANK_ORDER` (low to high, same as trump). -/
def NON_TRUMP_RANK_ORDER : List String := ["7", "8", "Q", "K", "10", "A", "9", "J"]

/-- `rules.py` `CARD_POINTS` lookup with default 0 (`Card.points`). -/
def Card.points (c : Card) : Int :=
  if c.rank = "J" then 3
  else if c.rank = "9" then 2
  else if c.rank = "A" then 1
  else if c.rank = "10" then 1
  else 0

/-- `rules.py` `make_deck`: one 32-card deck, two when mode "56" with
`two_decks_for_56`; uid is `f"{r}{s}#{d+1}"`. -/
def make_deck (mode : String) (two_decks_for_56 : Bool) : List Card :=
  let decks : Nat := if mode = "56" ∧ two_decks_for_56 then 2 else 1
  (List.range decks).flatMap fun d =>
    SUITS.flatMap fun s =>
      RANKS_28.map fun r => { suit := s, rank := r, uid := r ++ s ++ "#" ++ toString (d + 1) }

/-- `rules.py` `get_rank_value`: index of the rank in the (shared) rank table. -/
def get_rank_value (card : Card) (is_trump : Bool) : Nat :=
  if is_trump then TRUMP_RANK_ORDER.indexOf card.rank
  else NON_TRUMP_RANK_ORDER.indexOf card.rank

/-- `rules.py` `determine_trick_winner`.  The Python function raises on an
empty trick; that is modelled as `none`. -/
def determine_trick_winner (trick : List (Nat × Card)) (trump : Option String) :
    Option Nat :=
  match trick with
  | [] => none
  | (_, c0) :: _ =>
    let lead_suit := c0.suit
    let trump_cards : List (Nat × Card) :=
      match trump with
      | some t => trick.filter fun e => e.2.suit == t
      | none => []
    let is_trump_trick := !trump_cards.isEmpty
    let candidates : List (Nat × Card) :=
      if trump_cards.isEmpty then trick.filter (fun e => e.2.suit == lead_suit)
      else trump_cards
    match candidates with
    | [] => none
    | w :: rest =>
      some (rest.foldl
        (fun acc e =>
          if get_rank_value e.2 is_trump_trick > get_rank_value acc.2 is_trump_trick
          then e else acc) w).1

/-- `rules.py` `trick_points`: sum of card points in a trick. -/
def trick_points (trick : List (Nat × Card)) : Int :=
  (trick.map fun e => e.2.points).sum

/-- Convenience: the single shared rank table of the spec,
`7 < 8 < Q < K < 10 < A < 9 < J` (index = strength). -/
def sharedRankIndex (c : Card) : Nat :=
  sharedRankOrder.indexOf c.rank
where
  sharedRankOrder : List String := ["7", "8", "Q", "K", "10", "A", "9", "J"]

theorem get_rank_value_eq_shared (c : Card) (b : Bool) :
    get_rank_value c b = sharedRankIndex c := by
  cases b <;> rfl

/-- Candidate selection exactly as the specification words it: all trump-suit
cards when a trump is given and at least one was played, otherwise all cards
of the lead suit (the suit of the first card of the trick). -/
def claimCandidates (trick : List (Nat × Card)) (trump : Option String) :
    List (Nat × Card) :=
  let lead_cards : List (Nat × Card) :=
    match trick with
    | [] => []
    | (_, c0) :: _ => trick.filter fun e => e.2.suit == c0.suit
  match trump with
  | some t =>
    if (trick.filter fun e => e.2.suit == t).isEmpty then lead_cards
    else trick.filter fun e => e.2.suit == t
  | none => lead_cards

theorem foldl_pick_first_max {α : Type} (f : α → Nat) :
    ∀ (rest : List α) (w : α), ∃ l1 l2,
      w :: rest = l1 ++ (List.foldl (fun acc e => if f e > f acc then e else acc) w rest) :: l2 ∧
      (∀ y ∈ l1, f y < f (List.foldl (fun acc e => if f e > f acc then e else acc) w rest)) ∧
      (∀ y ∈ l2, f y ≤ f (List.foldl (fun acc e => if f e > f acc then e else acc) w rest)) := by
  intro rest
  induction rest with
  | nil => intro w; exact ⟨[], [], rfl, by simp, by simp⟩
  | cons e rest ih =>
    intro w
    by_cases h : f e > f w
    · obtain ⟨l1, l2, heq, hlt, hle⟩ := ih e
      have hstep : List.foldl (fun acc x => if f x > f acc then x else acc) w (e :: rest)
          = List.foldl (fun acc x => if f x > f acc then x else acc) e rest := by
        simp [List.foldl_cons, if_pos h]
      rw [hstep]
      set r := List.foldl (fun acc x => if f x > f acc then x else acc) e rest with hr
      have her : f e ≤ f r := by
        have : e ∈ l1 ++ r :: l2 := by rw [← heq]; exact List.mem_cons_self e rest
        rcases List.mem_append.mp this with h1 | h2
        · exact le_of_lt (hlt e h1)
        · rcases List.mem_cons.mp h2 with h3 | h4
          · rw [h3]
          · exact hle e h4
      refine ⟨w :: l1, l2, ?_, ?_, hle⟩
      · simp [heq]
      · intro y hy
        rcases List.mem_cons.mp hy with h1 | h2
        · subst h1; exact lt_of_lt_of_le h her
        · exact hlt y h2
    · obtain ⟨l1, l2, heq, hlt, hle⟩ := ih w
      have hstep : List.foldl (fun acc x => if f x > f acc then x else acc) w (e :: rest)
          = List.foldl (fun acc x => if f x > f acc then x else acc) w rest := by
        simp [List.foldl_cons, if_neg h]
      rw [hstep]
      set r := List.foldl (fun acc x => if f x > f acc then x else acc) w rest with hr
      cases l1 with
      | nil =>
        simp only [List.nil_append] at heq
        have hw2 : w = r := by injection heq
        have hl2 : rest = l2 := by injection heq
        refine ⟨[], e :: rest, ?_, by simp, ?_⟩
        · simp [hw2]
        · intro y hy
          rcases List.mem_cons.mp hy with h1 | h2
          · subst h1; rw [← hw2]; exact le_of_not_lt h
          · rw [hl2] at h2; exact hle y h2
      | cons a l1t =>
        have ha : a = w ∧ rest = l1t ++ r :: l2 := by
          constructor
          · injection heq.symm
          · injection heq
        refine ⟨w :: e :: l1t, l2, ?_, ?_, hle⟩
        · simp [ha.2]
        · intro y hy
          have hwr : f w < f r := ha.1 ▸ hlt a (List.mem_cons_self a l1t)
          rcases List.mem_cons.mp hy with h1 | h2
          · subst h1; exact hwr
          · rcases List.mem_cons.mp h2 with h3 | h4
            · subst h3; exact lt_of_le_of_lt (le_of_not_lt h) hwr
            · exact hlt y (List.mem_cons_of_mem a h4)

theorem pick_decomp (b : Bool) (w : Nat × Card) (rest : List (Nat × Card)) :
    ∃ (r : Nat × Card) (l1 l2 : List (Nat × Card)),
      (rest.foldl (fun acc e =>
        if get_rank_value e.2 b > get_rank_value acc.2 b then e else acc) w) = r ∧
      w :: rest = l1 ++ r :: l2 ∧
      (∀ e ∈ l1, sharedRankIndex e.2 < sharedRankIndex r.2) ∧
      (∀ e ∈ l2, sharedRankIndex e.2 ≤ sharedRankIndex r.2) := by
  obtain ⟨l1, l2, heq, hlt, hle⟩ :=
    foldl_pick_first_max (fun e : Nat × Card => get_rank_value e.2 b) rest w
  refine ⟨_, l1, l2, rfl, heq, ?_, ?_⟩
  · intro e he
    have := hlt e he
    simpa [get_rank_value_eq_shared] using this
  · intro e he
    have := hle e he
    simpa [get_rank_value_eq_shared] using this

theorem C1_general (s0 : Nat) (c0 : Card) (tl : List (Nat × Card)) (trump : Option String) :
    ∃ (r : Nat × Card) (l1 l2 : List (Nat × Card)),
      determine_trick_winner ((s0, c0) :: tl) trump = some r.1 ∧
      claimCandidates ((s0, c0) :: tl) trump = l1 ++ r :: l2 ∧
      (∀ e ∈ l1, sharedRankIndex e.2 < sharedRankIndex r.2) ∧
      (∀ e ∈ l2, sharedRankIndex e.2 ≤ sharedRankIndex r.2) := by
  have hlead : ((s0, c0) :: tl).filter (fun e => e.2.suit == c0.suit)
      = (s0, c0) :: tl.filter (fun e => e.2.suit == c0.suit) := by
    simp [List.filter_cons]
  cases trump with
  | none =>
    obtain ⟨r, l1, l2, hfold, hdec, hlt, hle⟩ :=
      pick_decomp false (s0, c0) (tl.filter (fun e => e.2.suit == c0.suit))
    refine ⟨r, l1, l2, ?_, ?_, hlt, hle⟩
    · simp only [determine_trick_winner, hlead, List.isEmpty_nil]
      simpa using congrArg (fun x => some x.1) hfold
    · simp only [claimCandidates]
      rw [hlead]
      exact hdec
  | some t =>
    by_cases hf : (((s0, c0) :: tl).filter fun e => e.2.suit == t).isEmpty
    · obtain ⟨r, l1, l2, hfold, hdec, hlt, hle⟩ :=
        pick_decomp false (s0, c0) (tl.filter (fun e => e.2.suit == c0.suit))
      refine ⟨r, l1, l2, ?_, ?_, hlt, hle⟩
      · simp only [determine_trick_winner, hf, hlead]
        simpa [hf] using congrArg (fun x => some x.1) hfold
      · simp only [claimCandidates, hf, if_true]
        rw [hlead]
        exact hdec
    · have hne : (((s0, c0) :: tl).filter fun e => e.2.suit == t) ≠ [] := by
        intro h
        rw [h] at hf
        exact hf rfl
      obtain ⟨w, rest, hcons⟩ := List.exists_cons_of_ne_nil hne
      obtain ⟨r, l1, l2, hfold, hdec, hlt, hle⟩ := pick_decomp true w rest
      refine ⟨r, l1, l2, ?_, ?_, hlt, hle⟩
      · simp only [determine_trick_winner, hcons]
        simp only [List.isEmpty_cons, Bool.not_false, Bool.false_eq_true, if_false]
        simpa using congrArg (fun x => some x.1) hfold
      · simp only [claimCandidates, hf, hcons]
        simpa using hdec


/-- C1: For every non-empty trick and optional visible trump,
`determine_trick_winner` picks candidates as all trump-suit cards when a trump
is given and at least one trump-suit card was played, otherwise all cards of
the lead suit; the winner is the candidate highest in the single shared rank
order `7 < 8 < Q < K < 10 < A < 9 < J` (the same table for trump and
non-trump), and on an exact rank tie the earliest-played candidate wins.
In particular seat 0 wins `[(0,J♠),(1,K♥),(2,9♠),(3,A♦)]` under trump ♠ and
seat 2 wins `[(0,K♥),(1,A♥),(2,9♥),(3,A♦)]` with no trump. -/
theorem C1_trick_winner :
    (∀ (s0 : Nat) (c0 : Card) (tl : List (Nat × Card)) (trump : Option String),
       ∃ (r : Nat × Card) (l1 l2 : List (Nat × Card)),
         determine_trick_winner ((s0, c0) :: tl) trump = some r.1 ∧
         claimCandidates ((s0, c0) :: tl) trump = l1 ++ r :: l2 ∧
         (∀ e ∈ l1, sharedRankIndex e.2 < sharedRankIndex r.2) ∧
         (∀ e ∈ l2, sharedRankIndex e.2 ≤ sharedRankIndex r.2)) ∧
    (∀ (c : Card) (b : Bool), get_rank_value c b = sharedRankIndex c) ∧
    determine_trick_winner
      [(0, ⟨"♠", "J", "J♠#1"⟩), (1, ⟨"♥", "K", "K♥#1"⟩),
       (2, ⟨"♠", "9", "9♠#1"⟩), (3, ⟨"♦", "A", "A♦#1"⟩)] (some "♠") = some 0 ∧
    determine_trick_winner
      [(0, ⟨"♥", "K", "K♥#1"⟩), (1, ⟨"♥", "A", "A♥#1"⟩),
       (2, ⟨"♥", "9", "9♥#1"⟩), (3, ⟨"♦", "A", "A♦#1"⟩)] none = some 2 :=
  ⟨C1_general, get_rank_value_eq_shared, by decide, by decide⟩


/-- `enums.py` `HiddenTrumpMode`. -/
inductive HiddenTrumpMode where
  | ON_FIRST_NONFOLLOW
  | ON_FIRST_TRUMP_PLAY
  | ON_BIDDER_NONFOLLOW
  | OPEN_IMMEDIATELY
deriving DecidableEq, Repr

/-- `enums.py` `SessionState`. -/
inductive SessionState where
  | LOBBY
  | DEALING
  | BIDDING
  | CHOOSE_TRUMP
  | PLAY
  | SCORING
  | ROUND_END
deriving DecidableEq, Repr

/-- `trick_manager.py` `TrickManager` state. -/
structure TrickManager where
  current_trick : List (Nat × Card)
  last_trick : Option (Nat × List (Nat × Card))
  captured_tricks : List (Nat × List (Nat × Card))
deriving DecidableEq, Repr

/-- `TrickManager.reset`. -/
def TrickManager.reset : TrickManager :=
  { current_trick := [], last_trick := none, captured_tricks := [] }

/-- `TrickManager.get_lead_suit`. -/
def TrickManager.get_lead_suit (tm : TrickManager) : Option String :=
  match tm.current_trick with
  | [] => none
  | (_, c) :: _ => some c.suit

/-- `TrickManager.is_trick_complete`. -/
def TrickManager.is_trick_complete (tm : TrickManager) (seats : Nat) : Bool :=
  tm.current_trick.length ≥ seats

/-- `TrickManager.complete_trick`: determine winner, award points, save the
trick, clear the current trick.  The Python method raises on an empty trick;
that is modelled as `none`.  `points_by_seat` is a seat-indexed list. -/
def TrickManager.complete_trick (tm : TrickManager) (trump : Option String)
    (points_by_seat : List Int) : Option (Nat × TrickManager × List Int) :=
  match determine_trick_winner tm.current_trick trump with
  | none => none
  | some winner =>
    let pts := trick_points tm.current_trick
    some (winner,
      { current_trick := [],
        last_trick := some (winner, tm.current_trick),
        captured_tricks := tm.captured_tricks ++ [(winner, tm.current_trick)] },
      points_by_seat.set winner (points_by_seat.getD winner 0 + pts))

/-- `hidden_trump.py` `HiddenTrumpManager.should_reveal_trump`.  The Python
body is a sequence of per-mode `if` blocks; since the modes are mutually
exclusive this is the same cascade. -/
def should_reveal_trump (trump_hidden : Bool) (hidden_trump_mode : HiddenTrumpMode)
    (played_card : Card) (trump_suit : Option String) (trump_owner_seat : Option Nat)
    (player_seat : Nat) (current_trick : List (Nat × Card)) (player_hand : List Card) :
    Bool × Option String :=
  if !trump_hidden then (false, none)
  else match trump_suit with
  | none => (false, none)
  | some ts =>
    if hidden_trump_mode = HiddenTrumpMode.OPEN_IMMEDIATELY then
      (true, some "open_immediately_mode")
    else if hidden_trump_mode = HiddenTrumpMode.ON_FIRST_TRUMP_PLAY then
      if played_card.suit = ts then
        (true, some ("first_trump_played_by_seat_" ++ toString player_seat))
      else (false, none)
    else if hidden_trump_mode = HiddenTrumpMode.ON_FIRST_NONFOLLOW then
      match current_trick with
      | [] => (false, none)
      | (_, lead) :: _ =>
        if (player_hand.any fun c => c.suit == lead.suit) ∧ played_card.suit ≠ lead.suit then
          (true, some ("nonfollow_by_seat_" ++ toString player_seat))
        else (false, none)
    else if hidden_trump_mode = HiddenTrumpMode.ON_BIDDER_NONFOLLOW then
      if some player_seat = trump_owner_seat then
        match current_trick with
        | [] => (false, none)
        | (_, lead) :: _ =>
          if (player_hand.any fun c => c.suit == lead.suit) ∧ played_card.suit ≠ lead.suit then
            (true, some ("bidder_nonfollow_seat_" ++ toString player_seat))
          else (false, none)
      else (false, none)
    else (false, none)

/-- `rules.py` `deal`: round-robin deal, literal translation of the loop
`hands[i % seats].append(deck[i])`.  The Python function raises for
`seats <= 0`; theorems about `deal` therefore assume `0 < seats`. -/
def deal (deck : List Card) (seats : Nat) : List (List Card) × List Card :=
  let hand_size := deck.length / seats
  let hands := (List.range (hand_size * seats)).foldl
    (fun hs i => hs.set (i % seats) (hs.getD (i % seats) [] ++ [deck.getD i default]))
    (List.replicate seats ([] : List Card))
  (hands, deck.drop (hand_size * seats))

/-- Python `(x - 1) % seats` on a nonnegative seat pointer. -/
def prevSeat (x seats : Nat) : Nat := (x + seats - 1) % seats

/-- Python `list.remove`: drop the first element equal to `c`. -/
def list_remove (l : List Card) (c : Card) : List Card :=
  match l with
  | [] => []
  | x :: xs => if x = c then xs else x :: list_remove xs c

/-- Bid outcome record of `session.py` `compute_scores`. -/
structure BidOutcome where
  bid_winner : Nat
  bid_value : Int
  winning_team : Nat
  success : Bool
deriving DecidableEq, Repr, Inhabited

/-- Return value of `compute_scores`: team points and optional bid outcome. -/
structure Scores where
  team_points : Int × Int
  bid_outcome : Option BidOutcome
deriving DecidableEq, Repr, Inhabited

/-- One entry of `rounds_history` (`session.py` round_data dict). -/
structure RoundData where
  round_number : Nat
  dealer : Nat
  bid_winner : Option Nat
  bid_value : Option Int
  trump : Option String
  captured_tricks : List (Nat × List (Nat × Card))
  points_by_seat : List Int
  team_scores : Scores
deriving DecidableEq, Repr, Inhabited

/-- `session.py` `GameSession` state.  `id`/`short_code` (identifiers) and the
asyncio lock are omitted; dict-by-seat fields are seat-indexed lists;
`_bids_received` is a list used as a set. -/
structure GameSession where
  mode : String
  seats : Nat
  hidden_trump_mode : HiddenTrumpMode
  min_bid : Int
  two_decks_for_56 : Bool
  deck : List Card
  kitty : List Card
  hands : List (List Card)
  players : List Nat
  state : SessionState
  bids : List (Option Int)
  current_highest : Option Int
  bid_winner : Option Nat
  bid_value : Option Int
  trump : Option String
  trump_hidden : Bool
  trump_owner : Option Nat
  current_dealer : Nat
  leader : Nat
  turn : Nat
  trick_manager : TrickManager
  points_by_seat : List Int
  rounds_history : List RoundData
  bids_received : List Nat
deriving DecidableEq, Repr

/-- `session.py` `compute_scores`: partition seats by parity, sum team
points, and bid outcome when a bid exists. -/
def compute_scores (s : GameSession) : Scores :=
  let tp := (s.points_by_seat.enum).foldl
    (fun (acc : Int × Int) (p : Nat × Int) =>
      if p.1 % 2 = 0 then (acc.1 + p.2, acc.2) else (acc.1, acc.2 + p.2))
    ((0 : Int), (0 : Int))
  let bid_outcome : Option BidOutcome :=
    match s.bid_winner, s.bid_value with
    | some w, some v =>
      let winning_team := if w % 2 = 0 then 0 else 1
      let wtp := if winning_team = 0 then tp.1 else tp.2
      some { bid_winner := w, bid_value := v, winning_team := winning_team,
             success := decide (wtp ≥ v) }
    | _, _ => none
  { team_points := tp, bid_outcome := bid_outcome }

/-- `session.py` `start_round`.  The random shuffle of `make_deck` is
modelled by the explicit `shuffled` argument.  The transient DEALING state is
overwritten by BIDDING before the method returns. -/
def start_round (s : GameSession) (dealer : Nat) (shuffled : List Card) :
    GameSession :=
  let s1 :=
    if s.trick_manager.captured_tricks ≠ [] then
      let round_data : RoundData :=
        { round_number := s.rounds_history.length + 1,
          dealer := s.current_dealer,
          bid_winner := s.bid_winner,
          bid_value := s.bid_value,
          trump := s.trump,
          captured_tricks := s.trick_manager.captured_tricks,
          points_by_seat := s.points_by_seat,
          team_scores := compute_scores s }
      { s with rounds_history := s.rounds_history ++ [round_data],
               current_dealer := (s.current_dealer + 1) % s.seats }
    else
      { s with current_dealer := dealer }
  let dealt := deal shuffled s1.seats
  { s1 with
    deck := shuffled,
    hands := dealt.1,
    kitty := dealt.2,
    leader := prevSeat s1.current_dealer s1.seats,
    turn := prevSeat s1.current_dealer s1.seats,
    state := SessionState.BIDDING,
    bids := List.replicate s1.seats (none : Option Int),
    bids_received := [],
    current_highest := none,
    bid_winner := none,
    bid_value := none,
    trump := none,
    trump_hidden := true,
    trump_owner := none,
    trick_manager := TrickManager.reset,
    points_by_seat := List.replicate s1.seats (0 : Int) }

/-- The code after a recorded bid in `place_bid`: advance the turn, then
either finish bidding (redeal on all-pass, else CHOOSE_TRUMP) or continue. -/
def place_bid_after (s : GameSession) (shuffled : List Card) :
    GameSession × Bool × String :=
  let s1 := { s with turn := prevSeat s.turn s.seats }
  if s1.bids.all (fun v => v.isSome) then
    if s1.bids.all (fun v => v == some (-1)) then
      (start_round s1 0 shuffled, true, "All passed: redealt")
    else
      ({ s1 with state := SessionState.CHOOSE_TRUMP }, true,
       "Bid accepted; bidding complete")
  else
    (s1, true, "Bid accepted")

/-- Python `self.current_highest is not None and val <= self.current_highest`. -/
def not_above_highest (cur : Option Int) (v : Int) : Bool :=
  match cur with
  | some ch => decide (v ≤ ch)
  | none => false

@[simp] theorem not_above_highest_none (v : Int) :
    not_above_highest none v = false := rfl

@[simp] theorem not_above_highest_some (ch v : Int) :
    not_above_highest (some ch) v = decide (v ≤ ch) := rfl

/-- Python `self.current_highest is None or val > self.current_highest`. -/
def improves_highest (cur : Option Int) (v : Int) : Bool :=
  match cur with
  | some ch => decide (v > ch)
  | none => true

@[simp] theorem improves_highest_none (v : Int) :
    improves_highest none v = true := rfl

@[simp] theorem improves_highest_some (ch v : Int) :
    improves_highest (some ch) v = decide (v > ch) := rfl

/-- `session.py` `place_bid`.  `val = none` is a pass (Python `None`), as is
`-1`; the `isinstance(val, int)` check is subsumed by the `Option Int` type.
The redeal that Python performs after releasing the lock (on all-pass) uses
the explicit `shuffled` deck. -/
def place_bid (s : GameSession) (seat : Nat) (val : Option Int)
    (shuffled : List Card) : GameSession × Bool × String :=
  if s.state ≠ SessionState.BIDDING then (s, false, "Not in bidding phase")
  else if seat ∉ s.players then (s, false, "Unknown seat")
  else if seat ≠ s.turn then (s, false, "Not your turn to bid")
  else if (s.bids.getD seat none).isSome then (s, false, "Seat already acted")
  else
    match val with
    | none =>
      place_bid_after
        { s with bids := s.bids.set seat (some (-1)),
                 bids_received := s.bids_received.insert seat } shuffled
    | some v =>
      if v = -1 then
        place_bid_after
          { s with bids := s.bids.set seat (some (-1)),
                   bids_received := s.bids_received.insert seat } shuffled
      else if v < s.min_bid then (s, false, "Bid must be >= min_bid")
      else
        let max_total : Int := if s.mode = "28" then 28 else 56
        if v > max_total then (s, false, "Bid cannot exceed max_total")
        else if not_above_highest s.current_highest v then
          (s, false, "Bid must be higher than current highest")
        else
          let s1 := { s with bids := s.bids.set seat (some v),
                             bids_received := s.bids_received.insert seat }
          let s2 :=
            if improves_highest s1.current_highest v then
              { s1 with current_highest := some v, bid_winner := some seat,
                        bid_value := some v }
            else s1
          place_bid_after s2 shuffled

/-- `session.py` `choose_trump`. -/
def choose_trump (s : GameSession) (seat : Nat) (suit : String) :
    GameSession × Bool × String :=
  if s.state ≠ SessionState.CHOOSE_TRUMP then (s, false, "Not waiting for trump")
  else if some seat ≠ s.bid_winner then (s, false, "Only bid winner can choose trump")
  else if suit ∉ SUITS then (s, false, "Invalid suit")
  else
    ({ s with trump := some suit, trump_hidden := true, trump_owner := some seat,
              state := SessionState.PLAY, turn := s.leader },
     true, "Trump chosen")

/-- `session.py` `_player_has_suit`. -/
def player_has_suit (s : GameSession) (seat : Nat) (suit : String) : Bool :=
  (s.hands.getD seat []).any fun c => c.suit == suit

/-- The follow-suit violation test of `play_card`
(`lead_suit and self._player_has_suit(seat, lead_suit) and card.suit != lead_suit`). -/
def follow_violation (s : GameSession) (seat : Nat) (card : Card) : Bool :=
  match s.trick_manager.get_lead_suit with
  | some ls => player_has_suit s seat ls && !(card.suit == ls)
  | none => false

/-- The accepted-path body of `play_card` (everything after validation):
remove the card, add it to the trick, evaluate the automatic reveal, advance
the turn, and resolve/archive a completed trick. -/
def play_card_apply (s : GameSession) (seat : Nat) (card : Card) :
    GameSession × Bool × String :=
  let hand_before_play := s.hands.getD seat []
  let tm1 := { s.trick_manager with
               current_trick := s.trick_manager.current_trick ++ [(seat, card)] }
  let s1 := { s with hands := s.hands.set seat (list_remove hand_before_play card),
                     trick_manager := tm1 }
  let trick_before_card := tm1.current_trick.dropLast
  let reveal := should_reveal_trump s1.trump_hidden s1.hidden_trump_mode card
    s1.trump s1.trump_owner seat trick_before_card hand_before_play
  let s2 := { s1 with trump_hidden := if reveal.1 then false else s1.trump_hidden }
  let s3 := { s2 with turn := prevSeat s2.turn s2.seats }
  if s3.trick_manager.is_trick_complete s3.seats then
    match s3.trick_manager.complete_trick
        (if s3.trump_hidden then none else s3.trump) s3.points_by_seat with
    | none => (s3, false, "No trick to complete")
    | some (winner, tm2, pts2) =>
      let s4 := { s3 with trick_manager := tm2, points_by_seat := pts2,
                          leader := winner, turn := winner }
      if s4.hands.all (fun h => h.length == 0) then
        let round_data : RoundData :=
          { round_number := s4.rounds_history.length + 1,
            dealer := s4.leader,
            bid_winner := s4.bid_winner,
            bid_value := s4.bid_value,
            trump := s4.trump,
            captured_tricks := s4.trick_manager.captured_tricks,
            points_by_seat := s4.points_by_seat,
            team_scores := compute_scores s4 }
        ({ s4 with state := SessionState.SCORING,
                   rounds_history := s4.rounds_history ++ [round_data] },
         true, "Trick complete")
      else (s4, true, "Trick complete")
  else (s3, true, "Card played")

/-- `session.py` `play_card`: validation prefix, then the accepted path. -/
def play_card (s : GameSession) (seat : Nat) (card_id : String) :
    GameSession × Bool × String :=
  if s.state ≠ SessionState.PLAY then (s, false, "Not in play phase")
  else if seat ≠ s.turn then (s, false, "Not your turn")
  else
    match (s.hands.getD seat []).find? (fun c => c.uid == card_id) with
    | none => (s, false, "Card not in hand")
    | some card =>
      if follow_violation s seat card then (s, false, "Must follow suit if possible")
      else play_card_apply s seat card


theorem place_bid_after_ok (s : GameSession) (shuffled : List Card) :
    (place_bid_after s shuffled).2.1 = true := by
  simp only [place_bid_after]
  split
  · split <;> rfl
  · rfl

/-- C5: in BIDDING and PLAY, any seat other than the turn pointer gets a
`(false, reason)` result from both `place_bid` and `play_card`, and the
session is unchanged. -/
theorem C5_turn_enforcement (s : GameSession) (seat : Nat) (val : Option Int)
    (cid : String) (shuffled : List Card)
    (hphase : s.state = SessionState.BIDDING ∨ s.state = SessionState.PLAY)
    (hneq : seat ≠ s.turn) :
    (place_bid s seat val shuffled).1 = s ∧
    (place_bid s seat val shuffled).2.1 = false ∧
    (play_card s seat cid).1 = s ∧
    (play_card s seat cid).2.1 = false := by
  rcases hphase with h | h
  · have hplay : play_card s seat cid = (s, false, "Not in play phase") := by
      rw [play_card.eq_def, if_pos]
      rw [h]
      decide
    by_cases hp : seat ∈ s.players
    · have hbid : place_bid s seat val shuffled = (s, false, "Not your turn to bid") := by
        rw [place_bid.eq_def, if_neg, if_neg, if_pos hneq]
        · simpa using hp
        · rw [h]; simp
      simp [hbid, hplay]
    · have hbid : place_bid s seat val shuffled = (s, false, "Unknown seat") := by
        rw [place_bid.eq_def, if_neg, if_pos]
        · simpa using hp
        · rw [h]; simp
      simp [hbid, hplay]
  · have hbid : place_bid s seat val shuffled = (s, false, "Not in bidding phase") := by
      rw [place_bid.eq_def, if_pos]
      rw [h]
      decide
    have hplay : play_card s seat cid = (s, false, "Not your turn") := by
      rw [play_card.eq_def, if_neg, if_pos hneq]
      rw [h]
      simp
    simp [hbid, hplay]

/-- C3: at the acting seat's turn in BIDDING, before that seat has acted, a
numeric bid `v` (not the `-1` pass sentinel) is accepted iff
`min_bid ≤ v ≤ mode max` and `v` strictly exceeds the current highest; a pass
(`none` or `-1`) is always accepted. -/
theorem C3_bid_validation (s : GameSession) (seat : Nat) (v : Int)
    (shuffled : List Card)
    (hst : s.state = SessionState.BIDDING) (hp : seat ∈ s.players)
    (ht : seat = s.turn) (hact : s.bids.getD seat none = none) (hv : v ≠ -1) :
    ((place_bid s seat (some v) shuffled).2.1 = true ↔
      (s.min_bid ≤ v ∧ v ≤ (if s.mode = "28" then 28 else 56) ∧
        ∀ ch, s.current_highest = some ch → ch < v)) ∧
    (place_bid s seat none shuffled).2.1 = true ∧
    (place_bid s seat (some (-1)) shuffled).2.1 = true := by
  have hguards : ∀ (w : Option Int) (res : GameSession × Bool × String),
      (match w with
       | none =>
         place_bid_after
           { s with bids := s.bids.set seat (some (-1)),
                    bids_received := s.bids_received.insert seat } shuffled
       | some v =>
         if v = -1 then
           place_bid_after
             { s with bids := s.bids.set seat (some (-1)),
                      bids_received := s.bids_received.insert seat } shuffled
         else if v < s.min_bid then (s, false, "Bid must be >= min_bid")
         else
           let max_total : Int := if s.mode = "28" then 28 else 56
           if v > max_total then (s, false, "Bid cannot exceed max_total")
           else if not_above_highest s.current_highest v then
             (s, false, "Bid must be higher than current highest")
           else
             let s1 := { s with bids := s.bids.set seat (some v),
                                bids_received := s.bids_received.insert seat }
             let s2 :=
               if improves_highest s1.current_highest v then
                 { s1 with current_highest := some v, bid_winner := some seat,
                           bid_value := some v }
               else s1
             place_bid_after s2 shuffled) = res →
      place_bid s seat w shuffled = res := by
    intro w res hres
    rw [place_bid.eq_def, if_neg, if_neg, if_neg, if_neg]
    · exact hres
    · rw [hact]; simp
    · simpa using ht
    · simpa using hp
    · rw [hst]; simp
  refine ⟨?_, ?_, ?_⟩
  · rw [hguards (some v) _ rfl]
    simp only []
    rw [if_neg hv]
    by_cases h1 : v < s.min_bid
    · rw [if_pos h1]
      simp only [Bool.false_eq_true, false_iff]
      rintro ⟨ha, -, -⟩
      omega
    · rw [if_neg h1]
      by_cases h2 : v > (if s.mode = "28" then (28 : Int) else 56)
      · simp only [if_pos h2, Bool.false_eq_true, false_iff]
        rintro ⟨-, hb, -⟩
        omega
      · simp only [if_neg h2]
        cases hch : s.current_highest with
        | none =>
          simp only [not_above_highest_none, Bool.false_eq_true, if_false,
            place_bid_after_ok, true_iff]
          refine ⟨by omega, by omega, ?_⟩
          intro ch hc
          exact absurd hc (by simp)
        | some ch =>
          by_cases h3 : v ≤ ch
          · have h3d : not_above_highest (some ch) v = true := by
              simp [not_above_highest, h3]
            rw [h3d, if_pos rfl]
            simp only [Bool.false_eq_true, false_iff]
            rintro ⟨-, -, hc⟩
            have := hc ch rfl
            omega
          · have h3d : decide (v ≤ ch) = false := by simpa using h3
            simp only [not_above_highest_some, h3d, Bool.false_eq_true, if_false,
              place_bid_after_ok, true_iff]
            refine ⟨by omega, by omega, ?_⟩
            intro c hc
            injection hc with hcc
            omega
  · rw [hguards none _ rfl]
    exact place_bid_after_ok _ _
  · rw [hguards (some (-1)) _ rfl]
    simp only [if_true]
    exact place_bid_after_ok _ _

/-- C4: in PLAY with a lead suit established and the lead suit present in the
acting seat's hand, playing a card of a different suit is rejected with the
follow-suit error and the session is unchanged. -/
theorem C4_follow_suit (s : GameSession) (seat : Nat) (cid : String)
    (card : Card) (ls : String)
    (hst : s.state = SessionState.PLAY) (ht : seat = s.turn)
    (hfind : (s.hands.getD seat []).find? (fun c => c.uid == cid) = some card)
    (hlead : s.trick_manager.get_lead_suit = some ls)
    (hhas : player_has_suit s seat ls = true)
    (hdiff : card.suit ≠ ls) :
    play_card s seat cid = (s, false, "Must follow suit if possible") := by
  have hviol : follow_violation s seat card = true := by
    rw [follow_violation, hlead]
    simp [hhas, hdiff]
  rw [play_card.eq_def, if_neg, if_neg]
  · rw [hfind]
    simp [hviol]
  · simpa using ht
  · rw [hst]; simp


theorem determine_trick_winner_isSome (trick : List (Nat × Card))
    (trump : Option String) (h : trick ≠ []) :
    (determine_trick_winner trick trump).isSome := by
  obtain ⟨e, tl, rfl⟩ := List.exists_cons_of_ne_nil h
  obtain ⟨s0, c0⟩ := e
  obtain ⟨r, l1, l2, hd, -⟩ := C1_general s0 c0 tl trump
  rw [hd]
  rfl

theorem complete_trick_isSome (tm : TrickManager) (trump : Option String)
    (pts : List Int) (h : tm.current_trick ≠ []) :
    (tm.complete_trick trump pts).isSome := by
  rw [TrickManager.complete_trick]
  have := determine_trick_winner_isSome tm.current_trick trump h
  cases hd : determine_trick_winner tm.current_trick trump with
  | none => rw [hd] at this; exact absurd this (by simp)
  | some w => simp

/-- In every branch of the accepted path, the resulting `trump_hidden` flag is
exactly "hidden before and no automatic reveal fired". -/
theorem play_card_apply_trump_hidden (s : GameSession) (seat : Nat) (card : Card) :
    (play_card_apply s seat card).1.trump_hidden =
      (if (should_reveal_trump s.trump_hidden s.hidden_trump_mode card s.trump
            s.trump_owner seat
            ((s.trick_manager.current_trick ++ [(seat, card)]).dropLast)
            (s.hands.getD seat [])).1
       then false else s.trump_hidden) := by
  rw [play_card_apply]
  simp only []
  split
  · split
    · rfl
    · split <;> rfl
  · rfl

theorem play_card_apply_ok (s : GameSession) (seat : Nat) (card : Card) :
    (play_card_apply s seat card).2.1 = true := by
  rw [play_card_apply]
  simp only []
  split
  · have hne : (s.trick_manager.current_trick ++ [(seat, card)]) ≠ [] := by
      simp
    split
    · next heq =>
      exfalso
      have := complete_trick_isSome
        { s.trick_manager with
          current_trick := s.trick_manager.current_trick ++ [(seat, card)] }
        (if (if (should_reveal_trump s.trump_hidden s.hidden_trump_mode card s.trump
                s.trump_owner seat
                ((s.trick_manager.current_trick ++ [(seat, card)]).dropLast)
                (s.hands.getD seat [])).1
             then false else s.trump_hidden) = true then none else s.trump)
        s.points_by_seat hne
      rw [heq] at this
      exact absurd this (by simp)
    · split <;> rfl
  · rfl

theorem should_reveal_first_trump (card : Card) (t : String) (owner : Option Nat)
    (seat : Nat) (trick : List (Nat × Card)) (hand : List Card) :
    (should_reveal_trump true HiddenTrumpMode.ON_FIRST_TRUMP_PLAY card (some t)
      owner seat trick hand).1 = decide (card.suit = t) := by
  by_cases h : card.suit = t <;> simp [should_reveal_trump, h]

/-- C6: under reveal mode ON_FIRST_TRUMP_PLAY, with a chosen and still hidden
trump, an accepted card play reveals the trump exactly when the played card's
suit equals the trump suit — and leaves it hidden otherwise. -/
theorem C6_reveal_on_first_trump_play (s : GameSession) (seat : Nat)
    (cid : String) (card : Card) (t : String)
    (hmode : s.hidden_trump_mode = HiddenTrumpMode.ON_FIRST_TRUMP_PLAY)
    (hhid : s.trump_hidden = true) (htr : s.trump = some t)
    (hst : s.state = SessionState.PLAY) (ht : seat = s.turn)
    (hfind : (s.hands.getD seat []).find? (fun c => c.uid == cid) = some card)
    (hviol : follow_violation s seat card = false) :
    (play_card s seat cid).2.1 = true ∧
    ((play_card s seat cid).1.trump_hidden = false ↔ card.suit = t) := by
  have hpc : play_card s seat cid = play_card_apply s seat card := by
    rw [play_card.eq_def, if_neg, if_neg]
    · rw [hfind]
      simp [hviol]
    · simpa using ht
    · rw [hst]; simp
  rw [hpc]
  refine ⟨play_card_apply_ok s seat card, ?_⟩
  rw [play_card_apply_trump_hidden]
  rw [hhid, hmode, htr, should_reveal_first_trump]
  by_cases h : card.suit = t <;> simp [h]

theorem complete_trick_winner_eq (tm : TrickManager) (trump : Option String)
    (pts : List Int) (w : Nat) (tm2 : TrickManager) (p2 : List Int)
    (h : tm.complete_trick trump pts = some (w, tm2, p2)) :
    determine_trick_winner tm.current_trick trump = some w := by
  rw [TrickManager.complete_trick] at h
  cases hd : determine_trick_winner tm.current_trick trump with
  | none => rw [hd] at h; exact absurd h (by simp)
  | some x =>
    rw [hd] at h
    simp only [Option.some.injEq, Prod.mk.injEq] at h
    rw [h.1]


/-- C2: when an accepted play completes a trick, the new leader/turn is the
winner computed by `determine_trick_winner` on the full trick, with `none`
passed as the trump whenever the trump is still hidden after this play's
automatic-reveal check (so a concealed trump cannot influence resolution),
and with the chosen trump suit whenever it has been revealed. -/
theorem C2_concealed_trump_resolution (s : GameSession) (seat : Nat)
    (cid : String) (card : Card)
    (hst : s.state = SessionState.PLAY) (ht : seat = s.turn)
    (hfind : (s.hands.getD seat []).find? (fun c => c.uid == cid) = some card)
    (hviol : follow_violation s seat card = false)
    (hcomp : s.trick_manager.current_trick.length + 1 ≥ s.seats) :
    ∃ w, determine_trick_winner (s.trick_manager.current_trick ++ [(seat, card)])
        (if (if (should_reveal_trump s.trump_hidden s.hidden_trump_mode card
                  s.trump s.trump_owner seat
                  ((s.trick_manager.current_trick ++ [(seat, card)]).dropLast)
                  (s.hands.getD seat [])).1
             then false else s.trump_hidden)
         then none else s.trump) = some w ∧
      (play_card s seat cid).1.leader = w ∧
      (play_card s seat cid).1.turn = w ∧
      (play_card s seat cid).2.1 = true := by
  have hpc : play_card s seat cid = play_card_apply s seat card := by
    rw [play_card.eq_def, if_neg, if_neg]
    · rw [hfind]
      simp [hviol]
    · simpa using ht
    · rw [hst]; simp
  rw [hpc]
  simp only [play_card_apply]
  split
  next h1 =>
    simp only [Bool.false_eq_true, if_false]
    split
    next hci =>
      split
      next heq =>
        exfalso
        have hne : ({ current_trick := s.trick_manager.current_trick ++ [(seat, card)],
                      last_trick := s.trick_manager.last_trick,
                      captured_tricks := s.trick_manager.captured_tricks } :
                    TrickManager).current_trick ≠ [] := by simp
        have h2 := complete_trick_isSome _ s.trump s.points_by_seat hne
        rw [heq] at h2
        exact absurd h2 (by simp)
      next winner tm2 pts2 heq =>
        refine ⟨winner, complete_trick_winner_eq _ _ _ _ _ _ heq, ?_⟩
        split <;> exact ⟨rfl, rfl, rfl⟩
    next hnc =>
      exfalso
      apply hnc
      simp only [TrickManager.is_trick_complete, List.length_append, List.length_cons,
        List.length_nil, ge_iff_le, decide_eq_true_eq]
      omega
  next h1 =>
    generalize (if s.trump_hidden = true then none else s.trump : Option String) = targ
    split
    next hci =>
      split
      next heq =>
        exfalso
        have hne : ({ current_trick := s.trick_manager.current_trick ++ [(seat, card)],
                      last_trick := s.trick_manager.last_trick,
                      captured_tricks := s.trick_manager.captured_tricks } :
                    TrickManager).current_trick ≠ [] := by simp
        have h2 := complete_trick_isSome _ targ s.points_by_seat hne
        rw [heq] at h2
        exact absurd h2 (by simp)
      next winner tm2 pts2 heq =>
        refine ⟨winner, complete_trick_winner_eq _ _ _ _ _ _ heq, ?_⟩
        split <;> exact ⟨rfl, rfl, rfl⟩
    next hnc =>
      exfalso
      apply hnc
      simp only [TrickManager.is_trick_complete, List.length_append, List.length_cons,
        List.length_nil, ge_iff_le, decide_eq_true_eq]
      omega

theorem scores_foldl (l : List (Nat × Int)) : ∀ (a b : Int),
    l.foldl (fun (acc : Int × Int) (p : Nat × Int) =>
        if p.1 % 2 = 0 then (acc.1 + p.2, acc.2) else (acc.1, acc.2 + p.2)) (a, b)
      = (a + ((l.filter fun p => decide (p.1 % 2 = 0)).map Prod.snd).sum,
         b + ((l.filter fun p => !decide (p.1 % 2 = 0)).map Prod.snd).sum) := by
  induction l with
  | nil => intro a b; simp
  | cons p tl ih =>
    intro a b
    by_cases hp : p.1 % 2 = 0
    · rw [List.foldl_cons, if_pos hp, ih]
      have h1 : (p :: tl).filter (fun p => decide (p.1 % 2 = 0))
          = p :: tl.filter (fun p => decide (p.1 % 2 = 0)) := by
        simp [List.filter_cons, hp]
      have h2 : (p :: tl).filter (fun p => !decide (p.1 % 2 = 0))
          = tl.filter (fun p => !decide (p.1 % 2 = 0)) := by
        simp [List.filter_cons, hp]
      rw [h1, h2]
      simp [add_assoc]
    · rw [List.foldl_cons, if_neg hp, ih]
      have h1 : (p :: tl).filter (fun p => decide (p.1 % 2 = 0))
          = tl.filter (fun p => decide (p.1 % 2 = 0)) := by
        simp [List.filter_cons, hp]
      have h2 : (p :: tl).filter (fun p => !decide (p.1 % 2 = 0))
          = p :: tl.filter (fun p => !decide (p.1 % 2 = 0)) := by
        simp [List.filter_cons, hp]
      rw [h1, h2]
      simp [add_assoc]

/-- C7: `compute_scores` sums even-seat points into team 0 and odd-seat
points into team 1, and whenever a bid winner and bid value exist it reports
a bid outcome whose success flag is true iff the winner's team total reaches
the bid value. -/
theorem C7_compute_scores (s : GameSession) (w : Nat) (v : Int)
    (hw : s.bid_winner = some w) (hv : s.bid_value = some v) :
    (compute_scores s).team_points.1
      = ((s.points_by_seat.enum.filter fun p => decide (p.1 % 2 = 0)).map Prod.snd).sum ∧
    (compute_scores s).team_points.2
      = ((s.points_by_seat.enum.filter fun p => !decide (p.1 % 2 = 0)).map Prod.snd).sum ∧
    ∃ o, (compute_scores s).bid_outcome = some o ∧
      o.bid_winner = w ∧ o.bid_value = v ∧
      o.winning_team = (if w % 2 = 0 then 0 else 1) ∧
      (o.success = true ↔
        (if w % 2 = 0 then (compute_scores s).team_points.1
         else (compute_scores s).team_points.2) ≥ v) := by
  have htp : (compute_scores s).team_points
      = (((s.points_by_seat.enum.filter fun p => decide (p.1 % 2 = 0)).map Prod.snd).sum,
         ((s.points_by_seat.enum.filter fun p => !decide (p.1 % 2 = 0)).map Prod.snd).sum) := by
    rw [compute_scores]
    simp only [scores_foldl, zero_add]
  refine ⟨by rw [htp], by rw [htp], ?_⟩
  rw [compute_scores]
  simp only [hw, hv]
  by_cases hpar : w % 2 = 0
  · refine ⟨_, rfl, rfl, rfl, ?_⟩
    simp [hpar]
  · refine ⟨_, rfl, rfl, rfl, ?_⟩
    simp [hpar]

theorem start_round_no_captured (s : GameSession) (dealer : Nat)
    (shuffled : List Card) (hcap : s.trick_manager.captured_tricks = []) :
    (start_round s dealer shuffled).current_dealer = dealer ∧
    (start_round s dealer shuffled).leader = prevSeat dealer s.seats ∧
    (start_round s dealer shuffled).rounds_history = s.rounds_history := by
  rw [start_round]
  simp [hcap]

/-- C10: when the last waiting seat passes and every other seat has already
passed, `place_bid` triggers the redeal through `start_round` with its
default dealer argument 0; since no tricks were captured, `start_round`
takes its first-round branch, so the new dealer is 0 and the new leader is
`(0 - 1) mod seats = seats - 1`, regardless of the dealer in effect before
the redeal. -/
theorem C10_all_pass_redeal (s : GameSession) (seat : Nat) (shuffled : List Card)
    (hst : s.state = SessionState.BIDDING) (hp : seat ∈ s.players)
    (ht : seat = s.turn) (hact : s.bids.getD seat none = none)
    (hcap : s.trick_manager.captured_tricks = [])
    (hall : ∀ i, i < s.seats → i ≠ seat → s.bids.getD i none = some (-1))
    (hlen : s.bids.length = s.seats) (hseats : 0 < s.seats)
    (hseat_lt : seat < s.seats) :
    (place_bid s seat none shuffled).2.1 = true ∧
    (place_bid s seat none shuffled).2.2 = "All passed: redealt" ∧
    (place_bid s seat none shuffled).1.current_dealer = 0 ∧
    (place_bid s seat none shuffled).1.leader = s.seats - 1 := by
  have hpass : place_bid s seat none shuffled =
      place_bid_after
        { s with bids := s.bids.set seat (some (-1)),
                 bids_received := s.bids_received.insert seat } shuffled := by
    rw [place_bid.eq_def, if_neg, if_neg, if_neg, if_neg]
    · rw [hact]; simp
    · simpa using ht
    · simpa using hp
    · rw [hst]; simp
  set s0 : GameSession :=
    { s with bids := s.bids.set seat (some (-1)),
             bids_received := s.bids_received.insert seat } with hs0
  have hsb : s0.bids = s.bids.set seat (some (-1)) := rfl
  have hbids : ∀ x ∈ s0.bids, x = some (-1) := by
    intro x hx
    rw [List.mem_iff_getElem] at hx
    obtain ⟨i, hi, hxi⟩ := hx
    have hilen : i < s.bids.length := by
      simpa [hsb] using hi
    have hxi2 : s0.bids[i]? = some x := by
      rw [List.getElem?_eq_getElem hi, hxi]
    rw [hsb] at hxi2
    by_cases his : i = seat
    · subst his
      rw [List.getElem?_set_self hilen] at hxi2
      injection hxi2 with h2
      rw [h2]
    · have hgd := hall i (by omega) his
      have hne2 : seat ≠ i := fun hc => his hc.symm
      rw [List.getElem?_set_ne hne2] at hxi2
      rw [List.getD_eq_getElem?_getD, hxi2] at hgd
      simpa using hgd
  have hall1 : s0.bids.all (fun x => x.isSome) = true := by
    rw [List.all_eq_true]
    intro x hx
    rw [hbids x hx]
    rfl
  have hall2 : s0.bids.all (fun x => x == some (-1)) = true := by
    rw [List.all_eq_true]
    intro x hx
    rw [hbids x hx]
    rfl
  have hafter : place_bid_after s0 shuffled =
      (start_round { s0 with turn := prevSeat s0.turn s0.seats } 0 shuffled, true,
        "All passed: redealt") := by
    rw [place_bid_after]
    simp only []
    rw [if_pos, if_pos]
    · exact hall2
    · exact hall1
  rw [hpass, hafter]
  have hsr := start_round_no_captured
    { s0 with turn := prevSeat s0.turn s0.seats } 0 shuffled (by simpa [hs0] using hcap)
  refine ⟨rfl, rfl, hsr.1, ?_⟩
  rw [hsr.2.1]
  show (0 + s.seats - 1) % s.seats = s.seats - 1
  rw [Nat.zero_add, Nat.mod_eq_of_lt]
  omega

/-- Cards currently lying in the trick area: the open trick plus all
captured tricks. -/
def cards_in_tricks (tm : TrickManager) : Nat :=
  tm.current_trick.length + (tm.captured_tricks.map fun t => t.2.length).sum

/-- Conservation of cards: hands, kitty and trick area together hold exactly
the dealt deck. -/
def card_conservation (s : GameSession) : Prop :=
  (s.hands.map List.length).sum + s.kitty.length + cards_in_tricks s.trick_manager
    = s.deck.length

theorem sum_map_length_set (l : List (List Card)) :
    ∀ (j : Nat) (x : List Card), j < l.length →
      ((l.set j x).map List.length).sum + (l.getD j []).length
        = (l.map List.length).sum + x.length := by
  induction l with
  | nil => intro j x hj; simp at hj
  | cons h t ih =>
    intro j x hj
    cases j with
    | zero => simp [List.set]; omega
    | succ j =>
      simp only [List.set, List.map_cons, List.sum_cons, List.getD_cons_succ]
      have := ih j x (by simpa using hj)
      omega

theorem list_remove_length (c : Card) :
    ∀ (l : List Card), c ∈ l → (list_remove l c).length + 1 = l.length := by
  intro l
  induction l with
  | nil => intro h; simp at h
  | cons x xs ih =>
    intro h
    rw [list_remove]
    by_cases hx : x = c
    · rw [if_pos hx]
      simp
    · rw [if_neg hx]
      have hmem : c ∈ xs := by
        rcases List.mem_cons.mp h with h1 | h2
        · exact absurd h1.symm hx
        · exact h2
      have := ih hmem
      simp only [List.length_cons]
      omega

theorem getD_ne_nil_lt (l : List (List Card)) (j : Nat)
    (h : l.getD j [] ≠ []) : j < l.length := by
  by_contra hc
  push_neg at hc
  rw [List.getD_eq_default] at h
  · exact h rfl
  · omega

theorem deal_fold_invariant (seats : Nat) (deck : List Card) (hs : 0 < seats) :
    ∀ (idx : List Nat) (acc : List (List Card)), acc.length = seats →
      (idx.foldl (fun hs i =>
          hs.set (i % seats) (hs.getD (i % seats) [] ++ [deck.getD i default]))
        acc).length = seats ∧
      ((idx.foldl (fun hs i =>
          hs.set (i % seats) (hs.getD (i % seats) [] ++ [deck.getD i default]))
        acc).map List.length).sum = (acc.map List.length).sum + idx.length := by
  intro idx
  induction idx with
  | nil => intro acc hacc; exact ⟨hacc, by simp⟩
  | cons i tl ih =>
    intro acc hacc
    rw [List.foldl_cons]
    have hj : i % seats < acc.length := by
      rw [hacc]; exact Nat.mod_lt _ hs
    have hlen : (acc.set (i % seats) (acc.getD (i % seats) [] ++ [deck.getD i default])).length
        = seats := by
      rw [List.length_set]; exact hacc
    obtain ⟨ih1, ih2⟩ := ih _ hlen
    refine ⟨ih1, ?_⟩
    rw [ih2]
    have hset := sum_map_length_set acc (i % seats)
      (acc.getD (i % seats) [] ++ [deck.getD i default]) hj
    rw [List.length_append] at hset
    simp only [List.length_cons, List.length_nil] at hset ⊢
    omega

theorem deal_conservation (deck : List Card) (seats : Nat) (hs : 0 < seats) :
    ((deal deck seats).1.map List.length).sum + (deal deck seats).2.length
      = deck.length := by
  rw [deal]
  simp only []
  obtain ⟨-, h2⟩ := deal_fold_invariant seats deck hs
    (List.range (deck.length / seats * seats)) (List.replicate seats [])
    (by simp)
  rw [h2]
  have hle : deck.length / seats * seats ≤ deck.length := Nat.div_mul_le_self _ _
  simp only [List.length_drop, List.length_range]
  have : (List.replicate seats ([] : List Card)).map List.length
      = List.replicate seats 0 := by
    simp
  rw [this]
  simp only [List.sum_replicate, smul_eq_mul, Nat.mul_zero]
  omega

theorem start_round_conservation (s : GameSession) (dealer : Nat)
    (deckL : List Card) (hs : 0 < s.seats) :
    ((start_round s dealer deckL).hands.map List.length).sum
        + (start_round s dealer deckL).kitty.length
      = (start_round s dealer deckL).deck.length ∧
    card_conservation (start_round s dealer deckL) := by
  rw [start_round]
  simp only []
  split
  · have := deal_conservation deckL s.seats hs
    constructor
    · simpa using this
    · rw [card_conservation]
      simp only [cards_in_tricks, TrickManager.reset]
      simpa using this
  · have := deal_conservation deckL s.seats hs
    constructor
    · simpa using this
    · rw [card_conservation]
      simp only [cards_in_tricks, TrickManager.reset]
      simpa using this

theorem complete_trick_some_shape (tm : TrickManager) (trump : Option String)
    (pts : List Int) (w : Nat) (tm2 : TrickManager) (p2 : List Int)
    (h : tm.complete_trick trump pts = some (w, tm2, p2)) :
    tm2.current_trick = [] ∧
    tm2.captured_tricks = tm.captured_tricks ++ [(w, tm.current_trick)] := by
  rw [TrickManager.complete_trick] at h
  cases hd : determine_trick_winner tm.current_trick trump with
  | none => rw [hd] at h; exact absurd h (by simp)
  | some x =>
    rw [hd] at h
    simp only [Option.some.injEq, Prod.mk.injEq] at h
    obtain ⟨hxw, htm, -⟩ := h
    subst hxw
    rw [← htm]
    exact ⟨rfl, rfl⟩

theorem play_card_apply_conservation (s : GameSession) (seat : Nat) (card : Card)
    (hmem : card ∈ s.hands.getD seat [])
    (hcons : card_conservation s) :
    card_conservation (play_card_apply s seat card).1 := by
  have hseat : seat < s.hands.length :=
    getD_ne_nil_lt s.hands seat (by intro h; rw [h] at hmem; simp at hmem)
  have hset := sum_map_length_set s.hands seat
    (list_remove (s.hands.getD seat []) card) hseat
  have hrem := list_remove_length card (s.hands.getD seat []) hmem
  rw [card_conservation, cards_in_tricks] at hcons
  rw [play_card_apply]
  simp only []
  generalize (should_reveal_trump s.trump_hidden s.hidden_trump_mode card s.trump
      s.trump_owner seat ((s.trick_manager.current_trick ++ [(seat, card)]).dropLast)
      (s.hands.getD seat [])).1 = rv
  generalize (if (if rv = true then false else s.trump_hidden) = true then none
      else s.trump : Option String) = targ
  split
  · split
    · rw [card_conservation, cards_in_tricks]
      simp only [List.length_append, List.length_cons, List.length_nil]
      omega
    · next winner tm2 pts2 heq =>
      obtain ⟨hcur, hcap⟩ := complete_trick_some_shape _ _ _ _ _ _ heq
      split
      · rw [card_conservation, cards_in_tricks, hcur, hcap]
        simp only [List.map_append, List.sum_append, List.map_cons, List.sum_cons,
          List.map_nil, List.sum_nil, List.length_append, List.length_cons,
          List.length_nil]
        omega
      · rw [card_conservation, cards_in_tricks, hcur, hcap]
        simp only [List.map_append, List.sum_append, List.map_cons, List.sum_cons,
          List.map_nil, List.sum_nil, List.length_append, List.length_cons,
          List.length_nil]
        omega
  · rw [card_conservation, cards_in_tricks]
    simp only [List.length_append, List.length_cons, List.length_nil]
    omega

theorem play_card_accepted_form (s : GameSession) (seat : Nat) (cid : String)
    (hok : (play_card s seat cid).2.1 = true) :
    ∃ card, (s.hands.getD seat []).find? (fun c => c.uid == cid) = some card ∧
      follow_violation s seat card = false ∧
      play_card s seat cid = play_card_apply s seat card := by
  have hok2 := hok
  rw [play_card.eq_def] at hok2
  split at hok2
  · exact absurd hok2 (by simp)
  · next hst2 =>
    split at hok2
    · exact absurd hok2 (by simp)
    · next ht2 =>
      split at hok2
      · exact absurd hok2 (by simp)
      · next card heq =>
        split at hok2
        · exact absurd hok2 (by simp)
        · next hnv =>
          have hviol : follow_violation s seat card = false := by
            simpa using hnv
          refine ⟨card, heq, hviol, ?_⟩
          rw [play_card.eq_def, if_neg hst2, if_neg ht2, heq]
          simp only [hviol, Bool.false_eq_true, if_false]

/-- C8 (amended): immediately after a round is dealt the per-seat hand sizes
plus the kitty size equal the deck size; each accepted card play moves one
card from a hand into the trick area, so across all session operations the
conserved quantity is hands + kitty + cards in current/captured tricks =
deck size (the bare hands+kitty sum equals the deck size only until cards
are played). -/
theorem C8_conservation_amended :
    (∀ (s : GameSession) (dealer : Nat) (deckL : List Card), 0 < s.seats →
      ((start_round s dealer deckL).hands.map List.length).sum
          + (start_round s dealer deckL).kitty.length
        = (start_round s dealer deckL).deck.length ∧
      card_conservation (start_round s dealer deckL)) ∧
    (∀ (s : GameSession) (seat : Nat) (cid : String),
      (play_card s seat cid).2.1 = true → card_conservation s →
      card_conservation (play_card s seat cid).1) := by
  constructor
  · intro s dealer deckL hs
    exact start_round_conservation s dealer deckL hs
  · intro s seat cid hok hcons
    obtain ⟨card, hfind, hviol, heq⟩ := play_card_accepted_form s seat cid hok
    rw [heq]
    exact play_card_apply_conservation s seat card
      (List.mem_of_find?_eq_some hfind) hcons

theorem start_round_with_captured (s : GameSession) (dealer : Nat)
    (deckL : List Card) (hcap : s.trick_manager.captured_tricks ≠ []) :
    ∃ r2, (start_round s dealer deckL).rounds_history = s.rounds_history ++ [r2] ∧
      r2.round_number = s.rounds_history.length + 1 ∧
      r2.dealer = s.current_dealer := by
  rw [start_round]
  simp only []
  rw [if_pos hcap]
  exact ⟨_, rfl, rfl, rfl⟩

theorem second_archive (s2 : GameSession) (base : List RoundData) (r1 : RoundData)
    (hh : s2.rounds_history = base ++ [r1])
    (hcap : s2.trick_manager.captured_tricks ≠ [])
    (hrn : r1.round_number = base.length + 1) :
    ∀ (d : Nat) (deckL : List Card), ∃ r2,
      (start_round s2 d deckL).rounds_history = base ++ [r1, r2] ∧
      r2.round_number = base.length + 2 ∧
      r2.dealer = s2.current_dealer ∧
      r1.round_number ≠ r2.round_number := by
  intro d deckL
  obtain ⟨r2, h1, h2, h3⟩ := start_round_with_captured s2 d deckL hcap
  have h2len : r2.round_number = base.length + 2 := by
    rw [h2, hh]
    simp only [List.length_append, List.length_cons, List.length_nil]
  refine ⟨r2, ?_, h2len, h3, ?_⟩
  · rw [h1, hh]
    simp
  · rw [h2len, hrn]
    omega

/-- C9 (amended): a round completed during play is archived twice — once by
`play_card` on entering SCORING (with `round_number = |history|+1` and the
`dealer` field holding the final trick's winner, the new leader), and once
more by the next `start_round`, whose archiving guard only checks that
captured tricks exist (with `round_number = |history|+2` and the `dealer`
field holding the pre-rotation dealer).  The two `round_number` fields always
differ; the two `dealer` fields record different quantities but need not
differ. -/
theorem C9_double_archive (s : GameSession) (seat : Nat) (cid : String) (card : Card)
    (hst : s.state = SessionState.PLAY) (ht : seat = s.turn)
    (hfind : (s.hands.getD seat []).find? (fun c => c.uid == cid) = some card)
    (hviol : follow_violation s seat card = false)
    (hcomp : s.trick_manager.current_trick.length + 1 ≥ s.seats)
    (hempty : ((s.hands.set seat (list_remove (s.hands.getD seat []) card)).all
        (fun h => h.length == 0)) = true) :
    ∃ r1, (play_card s seat cid).1.rounds_history = s.rounds_history ++ [r1] ∧
      r1.round_number = s.rounds_history.length + 1 ∧
      r1.dealer = (play_card s seat cid).1.leader ∧
      (play_card s seat cid).1.trick_manager.captured_tricks ≠ [] ∧
      ∀ (d : Nat) (deckL : List Card), ∃ r2,
        (start_round (play_card s seat cid).1 d deckL).rounds_history
          = s.rounds_history ++ [r1, r2] ∧
        r2.round_number = s.rounds_history.length + 2 ∧
        r2.dealer = (play_card s seat cid).1.current_dealer ∧
        r1.round_number ≠ r2.round_number := by
  have hpc : play_card s seat cid = play_card_apply s seat card := by
    rw [play_card.eq_def, if_neg, if_neg]
    · rw [hfind]
      simp [hviol]
    · simpa using ht
    · rw [hst]; simp
  rw [hpc]
  rw [play_card_apply]
  simp only []
  generalize (should_reveal_trump s.trump_hidden s.hidden_trump_mode card s.trump
      s.trump_owner seat ((s.trick_manager.current_trick ++ [(seat, card)]).dropLast)
      (s.hands.getD seat [])).1 = rv
  generalize (if (if rv = true then false else s.trump_hidden) = true then none
      else s.trump : Option String) = targ
  split
  · split
    · next heq =>
      exfalso
      have hne : ({ current_trick := s.trick_manager.current_trick ++ [(seat, card)],
                    last_trick := s.trick_manager.last_trick,
                    captured_tricks := s.trick_manager.captured_tricks } :
                  TrickManager).current_trick ≠ [] := by simp
      have h2 := complete_trick_isSome _ targ s.points_by_seat hne
      rw [heq] at h2
      exact absurd h2 (by simp)
    · next winner tm2 pts2 heq =>
      obtain ⟨hcur, hcap⟩ := complete_trick_some_shape _ _ _ _ _ _ heq
      refine ⟨_, rfl, rfl, rfl, ?_, ?_⟩
      · simp [hcap]
      · exact second_archive _ _ _ rfl (by simp [hcap]) rfl
  · next hnc =>
    exfalso
    apply hnc
    simp only [TrickManager.is_trick_complete, List.length_append, List.length_cons,
      List.length_nil, ge_iff_le, decide_eq_true_eq]
    omega

/-- A fresh four-seat session, as built by the `GameSession` constructor
with all four seats occupied. -/
def demoLobby : GameSession :=
  { mode := "28", seats := 4,
    hidden_trump_mode := HiddenTrumpMode.ON_FIRST_NONFOLLOW,
    min_bid := 14, two_decks_for_56 := true, deck := [], kitty := [],
    hands := [[], [], [], []], players := [0, 1, 2, 3],
    state := SessionState.LOBBY,
    bids := [none, none, none, none], current_highest := none,
    bid_winner := none, bid_value := none, trump := none, trump_hidden := true,
    trump_owner := none, current_dealer := 0, leader := 0, turn := 0,
    trick_manager := TrickManager.reset, points_by_seat := [0, 0, 0, 0],
    rounds_history := [], bids_received := [] }

/-- The unshuffled 32-card mode-28 deck (a legal shuffle outcome). -/
def deck28 : List Card := make_deck "28" true

def c8_s1 : GameSession := start_round demoLobby 0 deck28
def c8_s2 : GameSession := (place_bid c8_s1 3 (some 14) []).1
def c8_s3 : GameSession := (place_bid c8_s2 2 none []).1
def c8_s4 : GameSession := (place_bid c8_s3 1 none []).1
def c8_s5 : GameSession := (place_bid c8_s4 0 none []).1
def c8_s6 : GameSession := (choose_trump c8_s5 3 "♠").1

/-- C8 counterexample: a freshly dealt round (dealt from the full deck,
bidding completed, trump chosen) in which one accepted card play makes the
hand-sizes-plus-kitty sum fall below the deck size. -/
theorem C8_counterexample :
    (place_bid c8_s1 3 (some 14) []).2.1 = true ∧
    (place_bid c8_s2 2 none []).2.1 = true ∧
    (place_bid c8_s3 1 none []).2.1 = true ∧
    (place_bid c8_s4 0 none []).2.1 = true ∧
    (choose_trump c8_s5 3 "♠").2.1 = true ∧
    ((c8_s6.hands.map List.length).sum + c8_s6.kitty.length = c8_s6.deck.length) ∧
    (play_card c8_s6 3 "10♠#1").2.1 = true ∧
    ¬ (((play_card c8_s6 3 "10♠#1").1.hands.map List.length).sum
        + (play_card c8_s6 3 "10♠#1").1.kitty.length
       = (play_card c8_s6 3 "10♠#1").1.deck.length) := by
  decide

/-- The jack of hearts (deck 1). -/
def cJh : Card := { suit := "♥", rank := "J", uid := "J♥#1" }

/-- A session at the last play of a round: seats 1-3 have played their final
cards to the current trick, seat 0 holds one card, and the current dealer is
seat 0, which will also win the final trick. -/
def c9_base : GameSession :=
  { demoLobby with
    state := SessionState.PLAY,
    hands := [[cJh], [], [], []],
    trump := some "♠", trump_hidden := true, trump_owner := some 3,
    bid_winner := some 3, bid_value := some 14,
    current_dealer := 0, leader := 3, turn := 0,
    trick_manager :=
      { current_trick := [(3, { suit := "♥", rank := "7", uid := "7♥#1" }),
                          (2, { suit := "♥", rank := "8", uid := "8♥#1" }),
                          (1, { suit := "♥", rank := "Q", uid := "Q♥#1" })],
        last_trick := none, captured_tricks := [] } }

def c9_after_play : GameSession := (play_card c9_base 0 "J♥#1").1

def c9_after_new : GameSession := start_round c9_after_play 1 deck28

/-- C9 counterexample: after the round-completing play and the next
`start_round`, the history holds two entries whose `round_number` fields
differ but whose `dealer` fields are EQUAL (the final trick's winner, seat 0,
is also the pre-rotation dealer), refuting "differing round_number and
dealer fields". -/
theorem C9_counterexample :
    (play_card c9_base 0 "J♥#1").2.1 = true ∧
    c9_after_play.state = SessionState.SCORING ∧
    c9_after_play.rounds_history.length = 1 ∧
    c9_after_new.rounds_history.length = 2 ∧
    (c9_after_new.rounds_history.getD 0 default).round_number
      ≠ (c9_after_new.rounds_history.getD 1 default).round_number ∧
    (c9_after_new.rounds_history.getD 0 default).dealer
      = (c9_after_new.rounds_history.getD 1 default).dealer := by
  decide

theorem C1_trick_winner_witness :
    determine_trick_winner
      [(0, ⟨"♠", "J", "J♠#1"⟩), (1, ⟨"♥", "K", "K♥#1"⟩),
       (2, ⟨"♠", "9", "9♠#1"⟩), (3, ⟨"♦", "A", "A♦#1"⟩)] (some "♠") = some 0 ∧
    determine_trick_winner
      [(0, ⟨"♥", "K", "K♥#1"⟩), (1, ⟨"♥", "A", "A♥#1"⟩),
       (2, ⟨"♥", "9", "9♥#1"⟩), (3, ⟨"♦", "A", "A♦#1"⟩)] none = some 2 :=
  ⟨C1_trick_winner.2.2.1, C1_trick_winner.2.2.2⟩

theorem C2_concealed_trump_resolution_witness :
    ∃ w, determine_trick_winner (c9_base.trick_manager.current_trick ++ [(0, cJh)])
        (if (if (should_reveal_trump c9_base.trump_hidden c9_base.hidden_trump_mode cJh
                  c9_base.trump c9_base.trump_owner 0
                  ((c9_base.trick_manager.current_trick ++ [(0, cJh)]).dropLast)
                  (c9_base.hands.getD 0 [])).1
             then false else c9_base.trump_hidden)
         then none else c9_base.trump) = some w ∧
      (play_card c9_base 0 "J♥#1").1.leader = w ∧
      (play_card c9_base 0 "J♥#1").1.turn = w ∧
      (play_card c9_base 0 "J♥#1").2.1 = true :=
  C2_concealed_trump_resolution c9_base 0 "J♥#1" cJh rfl rfl (by decide) (by decide)
    (by decide)

theorem C3_bid_validation_witness :
    ((place_bid c8_s1 3 (some 20) []).2.1 = true ↔
      (c8_s1.min_bid ≤ 20 ∧ (20 : Int) ≤ (if c8_s1.mode = "28" then 28 else 56) ∧
        ∀ ch, c8_s1.current_highest = some ch → ch < 20)) ∧
    (place_bid c8_s1 3 none []).2.1 = true ∧
    (place_bid c8_s1 3 (some (-1)) []).2.1 = true :=
  C3_bid_validation c8_s1 3 20 [] (by decide) (by decide) (by decide) (by decide)
    (by decide)

/-- A mid-trick state where seat 1 must follow hearts but holds a spade. -/
def c4_demo : GameSession :=
  { demoLobby with
    state := SessionState.PLAY, turn := 1,
    hands := [[], [{ suit := "♥", rank := "K", uid := "K♥#1" },
                   { suit := "♠", rank := "7", uid := "7♠#1" }], [], []],
    trump := some "♦", trump_hidden := true, trump_owner := some 3,
    bid_winner := some 3, bid_value := some 14,
    trick_manager :=
      { current_trick := [(2, { suit := "♥", rank := "A", uid := "A♥#1" })],
        last_trick := none, captured_tricks := [] } }

theorem C4_follow_suit_witness :
    play_card c4_demo 1 "7♠#1" = (c4_demo, false, "Must follow suit if possible") :=
  C4_follow_suit c4_demo 1 "7♠#1" { suit := "♠", rank := "7", uid := "7♠#1" } "♥"
    rfl rfl (by decide) rfl (by decide) (by decide)

theorem C5_turn_enforcement_witness :
    (place_bid c8_s1 0 none []).1 = c8_s1 ∧
    (place_bid c8_s1 0 none []).2.1 = false ∧
    (play_card c8_s1 0 "7♠#1").1 = c8_s1 ∧
    (play_card c8_s1 0 "7♠#1").2.1 = false :=
  C5_turn_enforcement c8_s1 0 none "7♠#1" [] (Or.inl (by decide)) (by decide)

/-- A play-phase session under the ON_FIRST_TRUMP_PLAY reveal policy. -/
def c6_demo : GameSession :=
  { demoLobby with
    hidden_trump_mode := HiddenTrumpMode.ON_FIRST_TRUMP_PLAY,
    state := SessionState.PLAY, turn := 0, leader := 0,
    hands := [[{ suit := "♠", rank := "7", uid := "7♠#1" },
               { suit := "♥", rank := "9", uid := "9♥#1" }], [], [], []],
    trump := some "♠", trump_hidden := true, trump_owner := some 2,
    bid_winner := some 2, bid_value := some 14 }

theorem C6_reveal_on_first_trump_play_witness :
    (play_card c6_demo 0 "7♠#1").2.1 = true ∧
    ((play_card c6_demo 0 "7♠#1").1.trump_hidden = false ↔
      ({ suit := "♠", rank := "7", uid := "7♠#1" } : Card).suit = "♠") :=
  C6_reveal_on_first_trump_play c6_demo 0 "7♠#1"
    { suit := "♠", rank := "7", uid := "7♠#1" } "♠" rfl rfl rfl rfl rfl
    (by decide) (by decide)

/-- A scored session: seats hold 10/5/9/4 points, seat 3 won the bid at 14. -/
def c7_demo : GameSession :=
  { demoLobby with
    points_by_seat := [10, 5, 9, 4],
    bid_winner := some 3, bid_value := some 14 }

theorem C7_compute_scores_witness :
    (compute_scores c7_demo).team_points.1
      = ((c7_demo.points_by_seat.enum.filter fun p => decide (p.1 % 2 = 0)).map
          Prod.snd).sum ∧
    (compute_scores c7_demo).team_points.2
      = ((c7_demo.points_by_seat.enum.filter fun p => !decide (p.1 % 2 = 0)).map
          Prod.snd).sum ∧
    ∃ o, (compute_scores c7_demo).bid_outcome = some o ∧
      o.bid_winner = 3 ∧ o.bid_value = 14 ∧
      o.winning_team = (if 3 % 2 = 0 then 0 else 1) ∧
      (o.success = true ↔
        (if 3 % 2 = 0 then (compute_scores c7_demo).team_points.1
         else (compute_scores c7_demo).team_points.2) ≥ 14) :=
  C7_compute_scores c7_demo 3 14 rfl rfl

theorem C8_conservation_amended_witness :
    (((start_round demoLobby 0 deck28).hands.map List.length).sum
        + (start_round demoLobby 0 deck28).kitty.length
      = (start_round demoLobby 0 deck28).deck.length ∧
     card_conservation (start_round demoLobby 0 deck28)) ∧
    card_conservation (play_card c8_s6 3 "10♠#1").1 :=
  ⟨C8_conservation_amended.1 demoLobby 0 deck28 (by decide),
   C8_conservation_amended.2 c8_s6 3 "10♠#1" (by decide)
     (by simp only [card_conservation, cards_in_tricks]; decide)⟩

theorem C9_double_archive_witness :
    ∃ r1, (play_card c9_base 0 "J♥#1").1.rounds_history
        = c9_base.rounds_history ++ [r1] ∧
      r1.round_number = c9_base.rounds_history.length + 1 ∧
      r1.dealer = (play_card c9_base 0 "J♥#1").1.leader ∧
      (play_card c9_base 0 "J♥#1").1.trick_manager.captured_tricks ≠ [] ∧
      ∀ (d : Nat) (deckL : List Card), ∃ r2,
        (start_round (play_card c9_base 0 "J♥#1").1 d deckL).rounds_history
          = c9_base.rounds_history ++ [r1, r2] ∧
        r2.round_number = c9_base.rounds_history.length + 2 ∧
        r2.dealer = (play_card c9_base 0 "J♥#1").1.current_dealer ∧
        r1.round_number ≠ r2.round_number :=
  C9_double_archive c9_base 0 "J♥#1" cJh rfl rfl (by decide) (by decide) (by decide)
    (by decide)

def c10_s2 : GameSession := (place_bid c8_s1 3 none deck28).1
def c10_s3 : GameSession := (place_bid c10_s2 2 none deck28).1
def c10_s4 : GameSession := (place_bid c10_s3 1 none deck28).1

theorem C10_all_pass_redeal_witness :
    (place_bid c10_s4 0 none deck28).2.1 = true ∧
    (place_bid c10_s4 0 none deck28).2.2 = "All passed: redealt" ∧
    (place_bid c10_s4 0 none deck28).1.current_dealer = 0 ∧
    (place_bid c10_s4 0 none deck28).1.leader = c10_s4.seats - 1 :=
  C10_all_pass_redeal c10_s4 0 deck28 (by decide) (by decide) (by decide) (by decide)
    (by decide)
    (by
      intro i hi hne
      have h4 : i < 4 := hi
      interval_cases i
      · exact absurd rfl hne
      · decide
      · decide
      · decide)
    (by decide) (by decide) (by decide)

end Thurup
